import Mathlib

/-!
Verification development for the ralph-orchestrator control-loop core.

The Python sources under `src/ralph_orchestrator/` (run_manager.py,
daemon/manager.py, daemon/ipc.py) are shallowly embedded below: pure
functions become Lean functions, filesystem and process state becomes
explicit state passing, and standard-library effects (the clock, uuid
generation, `os.kill` outcomes, `json.loads` outcomes) become explicit
oracle inputs.  The orchestrator metrics module and the orchestrator's
completion/evidence checks are not present in the source tree (only
their tests are); those are modelled from the specification and marked
as such in their doc comments.

Definitions come first, then the theorems.
-/

namespace Ralph

/-! ## Character-list utilities

Python string operations (`str.strip`, splitting, `str.startswith`,
`str.lower`, substring containment, `int(...)` parsing) are modelled as
structural functions on `List Char` so that every definition evaluates
inside the kernel. -/

/-- Whitespace characters removed by Python's `str.strip()` (ASCII subset). -/
def isSpaceChar (c : Char) : Bool :=
  c = ' ' || c = '\t' || c = '\n' || c = '\r' || c = '\x0b' || c = '\x0c'

/-- Model of Python `str.strip()` on a character list. -/
def pyStripList (l : List Char) : List Char :=
  ((l.dropWhile isSpaceChar).reverse.dropWhile isSpaceChar).reverse

/-- Model of Python `str.strip()`. -/
def pyStrip (s : String) : String :=
  ⟨pyStripList s.data⟩

/-- Split a character list on a separator character, keeping empty segments
(the behaviour of Python `str.split(sep)`). -/
def splitOnChar (sep : Char) : List Char → List (List Char)
  | [] => [[]]
  | c :: cs =>
    if c = sep then [] :: splitOnChar sep cs
    else
      match splitOnChar sep cs with
      | [] => [[c]]
      | g :: gs => (c :: g) :: gs

/-- Lines of a string, split on the newline character. -/
def linesOf (s : String) : List String :=
  (splitOnChar '\n' s.data).map (fun l => (⟨l⟩ : String))

/-- Boolean list-prefix test (Python `str.startswith`). -/
def isPrefixOfL : List Char → List Char → Bool
  | [], _ => true
  | _ :: _, [] => false
  | a :: as, b :: bs => a = b && isPrefixOfL as bs

/-- Boolean substring-containment test (Python `pat in s`). -/
def containsSubL (pat : List Char) : List Char → Bool
  | [] => isPrefixOfL pat []
  | c :: cs => isPrefixOfL pat (c :: cs) || containsSubL pat cs

/-- Lower-casing of a character list (Python `str.lower`, ASCII letters). -/
def toLowerL (l : List Char) : List Char :=
  l.map Char.toLower

/-- Decimal digit test. -/
def isDigitChar (c : Char) : Bool :=
  '0' ≤ c && c ≤ '9'

/-- Numeric value of a decimal digit list, most significant first. -/
def digitsVal (l : List Char) : Nat :=
  l.foldl (fun acc c => acc * 10 + (c.toNat - '0'.toNat)) 0

/-- Model of Python `int(s)`: strip surrounding whitespace, then an optional
sign followed by a nonempty run of decimal digits; anything else raises
`ValueError`, modelled as `none`. -/
def pyParseInt (s : String) : Option Int :=
  let t := pyStripList s.data
  let signed : Int × List Char :=
    match t with
    | '-' :: rest => (-1, rest)
    | '+' :: rest => (1, rest)
    | _ => (1, t)
  if signed.2 ≠ [] && signed.2.all isDigitChar then
    some (signed.1 * (digitsVal signed.2 : Int))
  else none

/-- Association-list lookup with string keys (Python `dict` read). -/
def alGet {β : Type} : List (String × β) → String → Option β
  | [], _ => none
  | (k, v) :: rest, key => if k = key then some v else alGet rest key

/-- Association-list update-or-insert with string keys (Python `dict` write,
or an overwriting file write keyed by path). -/
def alSet {β : Type} : List (String × β) → String → β → List (String × β)
  | [], key, val => [(key, val)]
  | (k, v) :: rest, key, val =>
    if k = key then (key, val) :: rest else (k, v) :: alSet rest key val

/-! ## Bounded iteration telemetry (claim C1)

The metrics module defining `IterationStats.record_iteration` is not part of
the source tree; only `tests/test_metrics.py` exercises it.  The structure
and eviction policy below are modelled from the specification. -/

/-- Modelled from the spec: one closed iteration record — index, duration,
success flag, error text (empty on success), timestamp.  The metrics source
file is absent from the tree, so the shape comes from the data-model section
of the specification.  Durations and timestamps are oracle inputs. -/
structure IterationRecord where
  iteration : Nat
  duration : Int
  success : Bool
  error : String
  timestamp : String
deriving DecidableEq

/-- Modelled from the spec: aggregate iteration statistics — counters over
every iteration ever recorded plus the capacity-bounded retained window. -/
structure IterationStats where
  total : Nat
  successes : Nat
  failures : Nat
  current_iteration : Nat
  iterations : List IterationRecord
  max_iterations_stored : Nat
deriving DecidableEq

/-- Fresh statistics with a given retention capacity (the source default
capacity is 1000). -/
def IterationStats.init (cap : Nat) : IterationStats :=
  { total := 0, successes := 0, failures := 0, current_iteration := 0
    iterations := [], max_iterations_stored := cap }

/-- Modelled from the spec: `record_iteration` always increments `total` and
either `successes` or `failures`, appends the new record, and if the retained
list exceeds `max_iterations_stored` evicts from the front until back within
capacity. -/
def record_iteration (s : IterationStats) (r : IterationRecord) : IterationStats :=
  let appended := s.iterations ++ [r]
  { s with
    total := s.total + 1
    successes := if r.success then s.successes + 1 else s.successes
    failures := if r.success then s.failures else s.failures + 1
    iterations :=
      if appended.length > s.max_iterations_stored then
        appended.drop (appended.length - s.max_iterations_stored)
      else appended }

/-- Sequence of `record_iteration` calls, in call order. -/
def recordMany (s : IterationStats) (rs : List IterationRecord) : IterationStats :=
  rs.foldl record_iteration s

/-- Suffix of a list of length at most `cap` (the retained window after
front eviction). -/
def keepLast (cap : Nat) (l : List α) : List α :=
  l.drop (l.length - cap)

/-! ## Completion-marker detection (claim C2)

The orchestrator module that implements `_check_completion_marker` is not
part of the source tree; only `tests/test_completion_detection.py`
exercises it.  The matcher list below is modelled from the specification. -/

/-- Modelled from the spec: the orchestrator source file defining
`RalphOrchestrator._check_completion_marker` is absent from the tree, so the
per-line matchers are taken from the specification.  A line signals
completion when, after stripping surrounding whitespace, it is the literal
token `TASK_COMPLETE` standing alone, a checkbox form
`- [x] TASK_COMPLETE` / `[x] TASK_COMPLETE`, a bold-markup form
`**TASK_COMPLETE**` optionally followed by a trailing description, or a
label form `Status: TASK_COMPLETE` with or without bold markup on the
label.  The token is case-sensitive. -/
def lineSignalsComplete (line : String) : Bool :=
  let t : List Char := pyStripList line.data
  t = "TASK_COMPLETE".data
    || isPrefixOfL "- [x] TASK_COMPLETE".data t
    || isPrefixOfL "[x] TASK_COMPLETE".data t
    || isPrefixOfL "**TASK_COMPLETE**".data t
    || isPrefixOfL "Status: TASK_COMPLETE".data t
    || isPrefixOfL "**Status**: TASK_COMPLETE".data t

/-- Modelled from the spec: completion is detected when some line of the
prompt content matches one of the accepted completion-marker shapes. -/
def check_completion_marker (content : String) : Bool :=
  (linesOf content).any lineSignalsComplete

/-! ## Validation-evidence gate (claim C3)

The orchestrator method `_check_validation_evidence` is not part of the
source tree; only `tests/test_validation_evidence_freshness.py` exercises
it.  The gate below is modelled from the specification. -/

/-- Modelled from the spec: one file found under the run's evidence
directory.  The modification time and the text-likeness of the file are
oracle inputs supplied by the filesystem; times are modelled as integers
compared by order only. -/
structure EvidenceFile where
  name : String
  mtime : Int
  isText : Bool
  content : String
deriving DecidableEq

/-- Modelled from the spec: the known failure substrings looked for in
text-like evidence, matched case-insensitively — network/connection-failure
phrases and a generic error marker. -/
def failure_patterns : List String :=
  ["connection refused", "network request failed", "error"]

/-- Content check: does the lower-cased content contain a known failure
substring? -/
def contentHasFailure (content : String) : Bool :=
  failure_patterns.any (fun p => containsSubL p.data (toLowerL content.data))

/-- Modelled from the spec: a single evidence file violates the gate when its
modification time is strictly before the run start time (stale), or when it
is text-like and its content contains a known failure substring. -/
def evidenceViolation (run_start_time : Int) (f : EvidenceFile) : Bool :=
  decide (f.mtime < run_start_time) || (f.isText && contentHasFailure f.content)

/-- Modelled from the spec: `_check_validation_evidence` accepts completion
only when zero violations are found across all evidence files. -/
def check_validation_evidence (run_start_time : Int) (files : List EvidenceFile) : Bool :=
  files.all (fun f => !evidenceViolation run_start_time f)

/-- Concrete evidence set with one fresh text file carrying a
network-failure phrase and two otherwise-clean files, used by witnesses. -/
def sampleEvidence : List EvidenceFile :=
  [ { name := "phase-01/output.txt", mtime := 150, isText := true
      content := "curl: (7) Failed to connect to localhost port 8085: Connection refused" }
  , { name := "phase-01/test.png", mtime := 200, isText := false, content := "fake png" }
  , { name := "phase-01/test.json", mtime := 240, isText := true
      content := "status ok, all assertions passed" } ]

/-! ## Daemon manager (claims C6, C8)

Embeds `daemon/manager.py`.  The PID file is the mutable state (its optional
string contents); the outcome of `os.kill(pid, sig)` is an oracle function
from pid to a signal result. -/

/-- Outcome of `os.kill(pid, sig)`: success, `ProcessLookupError` (no such
process), or another `OSError` (permission denied). -/
inductive SigResult where
  | ok
  | noSuchProcess
  | permissionDenied
deriving DecidableEq

/-- Result dictionary of `DaemonManager.status()`: a `running` flag and an
optional `pid` entry. -/
structure DStatus where
  running : Bool
  pid : Option Int
deriving DecidableEq

namespace DaemonManager

/-- Embeds `DaemonManager._read_pid`: `none` when the PID file is missing,
and `none` (swallowed `ValueError`) when its stripped contents are not a
valid decimal integer. -/
def read_pid (pidFile : Option String) : Option Int :=
  match pidFile with
  | none => none
  | some s => pyParseInt s

/-- Embeds `DaemonManager.status()`.  Returns the status dictionary and the
resulting PID-file state.  A pid parsed as `0` is falsy in Python, so the
source's `if not pid` guard treats it like a missing file. -/
def status (probe : Int → SigResult) (pidFile : Option String) :
    DStatus × Option String :=
  match read_pid pidFile with
  | none => (⟨false, none⟩, pidFile)
  | some pid =>
    if pid = 0 then (⟨false, none⟩, pidFile)
    else
      match probe pid with
      | .ok => (⟨true, some pid⟩, pidFile)
      | .noSuchProcess => (⟨false, none⟩, none)
      | .permissionDenied => (⟨true, some pid⟩, pidFile)

/-- Embeds `DaemonManager.stop()`.  Returns whether a live process was
signalled and the resulting PID-file state (the file is removed on every
path that reaches the signal). -/
def stop (term : Int → SigResult) (pidFile : Option String) :
    Bool × Option String :=
  match read_pid pidFile with
  | none => (false, pidFile)
  | some pid =>
    if pid = 0 then (false, pidFile)
    else
      match term pid with
      | .ok => (true, none)
      | .noSuchProcess => (false, none)
      | .permissionDenied => (false, none)

end DaemonManager

/-! ## IPC server (claims C7, C10)

Embeds `daemon/ipc.py`.  JSON values are embedded structurally; the outcome
of reading from the connection and `json.loads` is an oracle: either the
client sent no bytes, or the bytes failed to parse, or they parsed to a
request object.  A handler either returns a response value or raises, with
the exception message. -/

/-- JSON values as produced by `json.loads`. -/
inductive JValue where
  | null
  | jbool (b : Bool)
  | jnum (n : Int)
  | jstr (s : String)
  | jarr (elems : List JValue)
  | jobj (fields : List (String × JValue))

/-- Data received on one accepted connection, after the server's read loop
and `json.loads`: the client sent nothing before closing, or sent bytes that
are not valid JSON, or sent a JSON object with the given fields. -/
inductive WireData where
  | empty
  | malformed
  | parsed (fields : List (String × JValue))

/-- Registered command handler: takes the params value and either returns a
response value or raises with a message. -/
def Handler : Type := JValue → Except String JValue

namespace IPCServer

/-- Embeds `IPCServer._dispatch`: an unregistered command yields an
`Unknown command` error object; a handler that raises yields an error object
carrying the exception message; otherwise the handler's result is returned
as the response. -/
def dispatch (handlers : List (String × Handler)) (command : String)
    (params : JValue) : JValue :=
  match alGet handlers command with
  | none => .jobj [("error", .jstr ("Unknown command: " ++ command))]
  | some h =>
    match h params with
    | .ok r => r
    | .error msg => .jobj [("error", .jstr msg)]

/-- Embeds `IPCServer._handle_client`: no received data produces no response;
malformed JSON produces the `Invalid JSON` error object; otherwise the
command and params fields are extracted (with defaults) and dispatched, and
the dispatch result is sent as the response. -/
def handle_client (handlers : List (String × Handler)) (d : WireData) :
    Option JValue :=
  match d with
  | .empty => none
  | .malformed => some (.jobj [("error", .jstr "Invalid JSON")])
  | .parsed fields =>
    let command : String :=
      match alGet fields "command" with
      | some (.jstr s) => s
      | _ => ""
    let params : JValue := (alGet fields "params").getD (.jobj [])
    some (dispatch handlers command params)

end IPCServer

/-- Embeds `IPCClient.is_daemon_running`: the liveness probe connects and
closes without sending any payload, so the server side of the probe
connection observes empty data. -/
def probePayload : WireData := .empty

/-! ## Run manager (claims C4, C5, C9)

Embeds `run_manager.py`.  The filesystem is the mutable state: the manifest
files keyed by run id and the per-prompt latest-run-id pointer files keyed
by prompt name.  The clock (the strftime timestamp and the ISO instant) and
the uuid4 suffix are oracle inputs to `create_run`. -/

/-- Contents of one `manifest.json`: `create_run` writes the first four
fields and `update_run_status` adds `updated_at`. -/
structure Manifest where
  prompt_path : String
  started_at : String
  status : String
  criteria : List String
  updated_at : Option String
deriving DecidableEq

/-- Embeds the `RunInfo` dataclass returned by lookups. -/
structure RunInfo where
  run_id : String
  manifest : Manifest
  evidence_dir : String
  run_dir : String
deriving DecidableEq

/-- Filesystem state owned by a `RunManager` with the given base directory:
manifests keyed by run id and latest-run-id pointer files keyed by prompt
name. -/
structure RMState where
  base_dir : String
  manifests : List (String × Manifest)
  pointers : List (String × String)
deriving DecidableEq

namespace RunManager

/-- Embeds `RunManager._extract_prompt_name`, i.e. `Path(prompt_path).stem`:
the last path component with its final extension removed, where a leading
dot with no other dot (a hidden file) is not an extension.  Models paths
without trailing separators, as produced by the callers. -/
def extract_prompt_name (prompt_path : String) : String :=
  let name := (splitOnChar '/' prompt_path.data).getLastD []
  let parts := splitOnChar '.' name
  match parts with
  | [] => ⟨name⟩
  | [_] => ⟨name⟩
  | first :: rest =>
    if first = [] ∧ rest.length = 1 then ⟨name⟩
    else ⟨List.intercalate ['.'] parts.dropLast⟩

/-- Run-id construction in `create_run`: strftime timestamp prefix, a dash,
then the uuid4 hex suffix. -/
def mkRunId (timestamp unique_suffix : String) : String :=
  timestamp ++ "-" ++ unique_suffix

/-- Path of a run's root directory under the manager's base directory. -/
def run_dir_of (base run_id : String) : String :=
  base ++ "/runs/" ++ run_id

/-- The `RunInfo` value `get_run` assembles for an existing manifest. -/
def runInfoOf (base run_id : String) (m : Manifest) : RunInfo :=
  { run_id := run_id, manifest := m
    evidence_dir := run_dir_of base run_id ++ "/validation-evidence"
    run_dir := run_dir_of base run_id }

/-- Embeds `RunManager.create_run`: build the run id from the clock and the
random suffix, write the initial manifest (status `running`, empty
criteria), and overwrite the per-prompt latest-run-id pointer.  Returns the
run id and the new filesystem state. -/
def create_run (st : RMState) (prompt_path timestamp unique_suffix now_iso : String) :
    String × RMState :=
  let run_id := mkRunId timestamp unique_suffix
  let manifest : Manifest :=
    { prompt_path := prompt_path, started_at := now_iso, status := "running"
      criteria := [], updated_at := none }
  (run_id,
   { st with
     manifests := alSet st.manifests run_id manifest
     pointers := alSet st.pointers (extract_prompt_name prompt_path) run_id })

/-- Embeds `RunManager.get_run`: `none` when the manifest file is missing,
otherwise the assembled `RunInfo`. -/
def get_run (st : RMState) (run_id : String) : Option RunInfo :=
  match alGet st.manifests run_id with
  | none => none
  | some m => some (runInfoOf st.base_dir run_id m)

/-- Embeds `RunManager.get_latest_run`: read the pointer file for the prompt
name, strip its contents, and look the run up; `none` when the pointer file
is missing. -/
def get_latest_run (st : RMState) (prompt_name : String) : Option RunInfo :=
  match alGet st.pointers prompt_name with
  | none => none
  | some content => get_run st (pyStrip content)

/-- Embeds `RunManager.update_run_status`: `False` without touching anything
when the manifest is missing; otherwise rewrite the manifest's `status` and
`updated_at` fields and return `True`. -/
def update_run_status (st : RMState) (run_id status now_iso : String) :
    Bool × RMState :=
  match alGet st.manifests run_id with
  | none => (false, st)
  | some m =>
    (true,
     { st with
       manifests := alSet st.manifests run_id
         { m with status := status, updated_at := some now_iso } })

end RunManager

/-- Oracle inputs of one `create_run` call: the strftime timestamp, the
uuid4 hex suffix, and the ISO start instant. -/
structure CreateCall where
  ts : String
  sfx : String
  iso : String
deriving DecidableEq

/-- Run id generated for one call. -/
def mkCallId (c : CreateCall) : String :=
  RunManager.mkRunId c.ts c.sfx

/-- Sequence of `create_run` calls for the same prompt path, returning the
run ids in call order and the final filesystem state. -/
def create_runs (st : RMState) (p : String) : List CreateCall → List String × RMState
  | [] => ([], st)
  | c :: rest =>
    let r1 := RunManager.create_run st p c.ts c.sfx c.iso
    let r2 := create_runs r1.2 p rest
    (r1.1 :: r2.1, r2.2)

end Ralph

namespace Ralph

/-! ## Theorems for claims C1, C2, C3 -/

theorem record_iteration_iterations (s : IterationStats) (r : IterationRecord) :
    (record_iteration s r).iterations =
      keepLast s.max_iterations_stored (s.iterations ++ [r]) := by
  simp only [record_iteration, keepLast]
  split
  · rfl
  · next h =>
    have h0 : (s.iterations ++ [r]).length - s.max_iterations_stored = 0 := by omega
    rw [h0, List.drop_zero]

theorem keepLast_length_le (cap : Nat) (l : List α) :
    (keepLast cap l).length ≤ cap := by
  simp [keepLast]
  omega

theorem keepLast_of_le (cap : Nat) (l : List α) (h : l.length ≤ cap) :
    keepLast cap l = l := by
  simp [keepLast, Nat.sub_eq_zero_of_le h]

theorem keepLast_keepLast_append (cap : Nat) (R L : List α) :
    keepLast cap (keepLast cap R ++ L) = keepLast cap (R ++ L) := by
  unfold keepLast
  have hk : R.length - cap ≤ R.length := Nat.sub_le _ _
  rw [← List.drop_append_of_le_length hk, List.drop_drop]
  congr 1
  simp only [List.length_drop, List.length_append]
  omega

theorem recordMany_invariant (s : IterationStats) (rs : List IterationRecord)
    (hle : s.iterations.length ≤ s.max_iterations_stored) :
    (recordMany s rs).total = s.total + rs.length
    ∧ (recordMany s rs).successes = s.successes + rs.countP (fun r => r.success)
    ∧ (recordMany s rs).failures = s.failures + rs.countP (fun r => !r.success)
    ∧ (recordMany s rs).max_iterations_stored = s.max_iterations_stored
    ∧ (recordMany s rs).iterations =
        keepLast s.max_iterations_stored (s.iterations ++ rs) := by
  induction rs generalizing s with
  | nil =>
    simp [recordMany, keepLast_of_le _ _ hle]
  | cons r rest ih =>
    have hstep : recordMany s (r :: rest) = recordMany (record_iteration s r) rest := rfl
    have hle2 : (record_iteration s r).iterations.length ≤
        (record_iteration s r).max_iterations_stored := by
      rw [record_iteration_iterations]
      exact keepLast_length_le _ _
    obtain ⟨h1, h2, h3, h4, h5⟩ := ih (record_iteration s r) hle2
    rw [hstep]
    refine ⟨?_, ?_, ?_, ?_, ?_⟩
    · rw [h1]; simp [record_iteration]; omega
    · rw [h2]
      by_cases hr : r.success <;> · simp [record_iteration, hr, List.countP_cons]; try omega
    · rw [h3]
      by_cases hr : r.success <;> · simp [record_iteration, hr, List.countP_cons]; try omega
    · rw [h4]; rfl
    · rw [h5, record_iteration_iterations]
      show keepLast s.max_iterations_stored _ = _
      rw [keepLast_keepLast_append]
      simp

/-- C1: for every sequence of `record_iteration` calls on fresh statistics
with capacity `cap`, the retained record count never exceeds `cap`, the
retained records are exactly the most recent calls in call order (the oldest
evicted first), and the total/successes/failures counters count every call
ever made. -/
theorem c1_record_iteration_bounded_fifo (cap : Nat) (rs : List IterationRecord) :
    (recordMany (IterationStats.init cap) rs).iterations.length ≤ cap
    ∧ (recordMany (IterationStats.init cap) rs).iterations = rs.drop (rs.length - cap)
    ∧ (recordMany (IterationStats.init cap) rs).total = rs.length
    ∧ (recordMany (IterationStats.init cap) rs).successes = rs.countP (fun r => r.success)
    ∧ (recordMany (IterationStats.init cap) rs).failures = rs.countP (fun r => !r.success) := by
  obtain ⟨h1, h2, h3, h4, h5⟩ :=
    recordMany_invariant (IterationStats.init cap) rs (by simp [IterationStats.init])
  refine ⟨?_, ?_, ?_, ?_, ?_⟩
  · rw [h5]; exact keepLast_length_le _ _
  · rw [h5]; simp [IterationStats.init, keepLast]
  · simpa [IterationStats.init] using h1
  · simpa [IterationStats.init] using h2
  · simpa [IterationStats.init] using h3

/-- C2: the completion-marker check accepts the checkbox forms (leading
whitespace tolerated), the bold-markup form with or without a trailing
description, the standalone token on its own line, and the label form with
or without bold markup; it rejects the token appearing mid-sentence as
plain prose and every lowercase or mixed-case variant of the token. -/
theorem c2_completion_marker_detection :
    check_completion_marker "# Task\n\n- [x] TASK_COMPLETE\n" = true
    ∧ check_completion_marker "# Task\n\n   - [x] TASK_COMPLETE\n" = true
    ∧ check_completion_marker "# Task\n\n[x] TASK_COMPLETE\n" = true
    ∧ check_completion_marker "# Task\n\n**TASK_COMPLETE**\n" = true
    ∧ check_completion_marker "**TASK_COMPLETE** - done\n" = true
    ∧ check_completion_marker "# Task\n\nTASK_COMPLETE\n\nEnd.\n" = true
    ∧ check_completion_marker "Status: TASK_COMPLETE\n" = true
    ∧ check_completion_marker "**Status**: TASK_COMPLETE\n" = true
    ∧ check_completion_marker
        "Remember to mark TASK_COMPLETE when all items are done.\nPlease add the TASK_COMPLETE marker at the end.\n" = false
    ∧ check_completion_marker "- [x] task_complete\n" = false
    ∧ check_completion_marker "Task_Complete\n" = false
    ∧ check_completion_marker "**task_complete**\n" = false := by
  decide

/-- C3: the evidence gate passes exactly when every evidence file is fresh
(modification time at or after the run start) and no text-like evidence file
contains a known failure substring; consequently a single stale file fails
the whole check even when all other files are fresh, and a text file with
failure content fails the check regardless of its timestamp. -/
theorem c3_evidence_gate (T : Int) (files : List EvidenceFile) :
    (check_validation_evidence T files = true ↔
      ∀ f ∈ files, T ≤ f.mtime ∧ (f.isText = true → contentHasFailure f.content = false))
    ∧ (∀ f ∈ files, f.mtime < T → check_validation_evidence T files = false)
    ∧ (∀ f ∈ files, f.isText = true → contentHasFailure f.content = true →
        check_validation_evidence T files = false) := by
  have hiff : check_validation_evidence T files = true ↔
      ∀ f ∈ files, T ≤ f.mtime ∧ (f.isText = true → contentHasFailure f.content = false) := by
    simp only [check_validation_evidence, List.all_eq_true, evidenceViolation,
      Bool.not_eq_true', Bool.or_eq_false_iff, Bool.and_eq_false_iff,
      decide_eq_false_iff_not, not_lt]
    constructor
    · intro h f hf
      obtain ⟨h1, h2⟩ := h f hf
      refine ⟨h1, fun ht => ?_⟩
      rcases h2 with h2 | h2
      · simp [ht] at h2
      · exact h2
    · intro h f hf
      obtain ⟨h1, h2⟩ := h f hf
      refine ⟨h1, ?_⟩
      by_cases ht : f.isText
      · exact Or.inr (h2 ht)
      · exact Or.inl (by simpa using ht)
  refine ⟨hiff, ?_, ?_⟩
  · intro f hf hstale
    by_contra hne
    have htrue : check_validation_evidence T files = true := by
      cases h : check_validation_evidence T files
      · exact absurd h hne
      · rfl
    obtain ⟨h1, _⟩ := hiff.mp htrue f hf
    omega
  · intro f hf ht hbad
    by_contra hne
    have htrue : check_validation_evidence T files = true := by
      cases h : check_validation_evidence T files
      · exact absurd h hne
      · rfl
    obtain ⟨_, h2⟩ := hiff.mp htrue f hf
    rw [h2 ht] at hbad
    exact Bool.false_ne_true hbad

/-- C3 witness: on the concrete evidence set the gate rejects because one
fresh text file contains a connection-failure phrase, and the theorem's
hypotheses hold at that file. -/
theorem c3_evidence_gate_witness :
    (sampleEvidence.get ⟨0, by decide⟩) ∈ sampleEvidence
    ∧ (sampleEvidence.get ⟨0, by decide⟩).isText = true
    ∧ contentHasFailure (sampleEvidence.get ⟨0, by decide⟩).content = true
    ∧ check_validation_evidence 100 sampleEvidence = false :=
  ⟨by decide, by decide, by decide,
    (c3_evidence_gate 100 sampleEvidence).2.2 (sampleEvidence.get ⟨0, by decide⟩)
      (by decide) (by decide) (by decide)⟩

/-! ## Theorems for claims C6, C8 (daemon manager) -/

/-- C6: `status()` with no PID file reports not running; with a PID file
naming a process whose zero-effect probe reports no such process it reports
not running and deletes the stale PID file; with a PID file naming a process
it lacks permission to signal it reports running with that pid and keeps the
file. -/
theorem c6_daemon_status_cases (probe : Int → SigResult) (s : String) (p : Int)
    (hparse : pyParseInt s = some p) (hp : p ≠ 0) :
    DaemonManager.status probe none = (⟨false, none⟩, none)
    ∧ (probe p = .noSuchProcess →
        DaemonManager.status probe (some s) = (⟨false, none⟩, none))
    ∧ (probe p = .permissionDenied →
        DaemonManager.status probe (some s) = (⟨true, some p⟩, some s)) := by
  refine ⟨rfl, ?_, ?_⟩ <;> intro hprobe <;>
    simp [DaemonManager.status, DaemonManager.read_pid, hparse, hp, hprobe]

/-- C6 witness: the three status cases evaluated at the concrete pid-file
contents `12345`. -/
theorem c6_daemon_status_cases_witness :
    DaemonManager.status (fun _ => SigResult.noSuchProcess) (some "12345")
      = (⟨false, none⟩, none)
    ∧ DaemonManager.status (fun _ => SigResult.permissionDenied) (some "12345")
      = (⟨true, some 12345⟩, some "12345")
    ∧ DaemonManager.status (fun _ => SigResult.ok) none = (⟨false, none⟩, none) :=
  ⟨(c6_daemon_status_cases (fun _ => SigResult.noSuchProcess) "12345" 12345
      (by decide) (by decide)).2.1 rfl,
   (c6_daemon_status_cases (fun _ => SigResult.permissionDenied) "12345" 12345
      (by decide) (by decide)).2.2 rfl,
   (c6_daemon_status_cases (fun _ => SigResult.ok) "12345" 12345
      (by decide) (by decide)).1⟩

/-- C8 counterexample: on a PID file with corrupt contents, `status()` and
`stop()` surface no error at all — they return the same benign results as
for a missing PID file (`running = false`, `False`) and leave the corrupt
file in place, contradicting the claim that the fault is surfaced to the
caller as an explicit connection/IO error. -/
theorem c8_counterexample :
    DaemonManager.status (fun _ => SigResult.ok) (some "not-a-pid")
      = (⟨false, none⟩, some "not-a-pid")
    ∧ DaemonManager.stop (fun _ => SigResult.ok) (some "not-a-pid")
      = (false, some "not-a-pid")
    ∧ (DaemonManager.status (fun _ => SigResult.ok) (some "not-a-pid")).1
      = (DaemonManager.status (fun _ => SigResult.ok) none).1
    ∧ (DaemonManager.stop (fun _ => SigResult.ok) (some "not-a-pid")).1
      = (DaemonManager.stop (fun _ => SigResult.ok) none).1 := by
  decide

/-- C8 amended: when the PID file exists but its contents do not parse as a
decimal process id, `_read_pid` swallows the `ValueError` and returns `None`,
so `status()` reports not running and `stop()` returns `False`; both leave
the corrupt PID file in place and surface no error. -/
theorem c8_corrupt_pid_silently_ignored (probe term : Int → SigResult)
    (s : String) (hbad : pyParseInt s = none) :
    DaemonManager.status probe (some s) = (⟨false, none⟩, some s)
    ∧ DaemonManager.stop term (some s) = (false, some s) := by
  constructor <;>
    simp [DaemonManager.status, DaemonManager.stop, DaemonManager.read_pid, hbad]

/-- C8 amended witness: the silent-ignore behaviour evaluated at the
concrete corrupt contents `not-a-pid`. -/
theorem c8_corrupt_pid_silently_ignored_witness :
    DaemonManager.status (fun _ => SigResult.ok) (some "not-a-pid")
      = (⟨false, none⟩, some "not-a-pid")
    ∧ DaemonManager.stop (fun _ => SigResult.ok) (some "not-a-pid")
      = (false, some "not-a-pid") :=
  c8_corrupt_pid_silently_ignored (fun _ => SigResult.ok) (fun _ => SigResult.ok)
    "not-a-pid" (by decide)

/-! ## Theorems for claims C7, C10 (IPC server) -/

/-- C7: malformed JSON yields the `Invalid JSON` error object; a well-formed
request is dispatched on its command and params fields; an unregistered
command yields an `Unknown command` error naming the command; a handler that
raises yields an error object carrying the exception message; a handler that
returns normally yields exactly its result, so an echo handler returns the
request's params unchanged. -/
theorem c7_ipc_request_handling (handlers : List (String × Handler))
    (c : String) (params : JValue) :
    IPCServer.handle_client handlers .malformed
      = some (.jobj [("error", .jstr "Invalid JSON")])
    ∧ IPCServer.handle_client handlers
        (.parsed [("command", .jstr c), ("params", params)])
      = some (IPCServer.dispatch handlers c params)
    ∧ (alGet handlers c = none →
        IPCServer.dispatch handlers c params
          = .jobj [("error", .jstr ("Unknown command: " ++ c))])
    ∧ (∀ h : Handler, alGet handlers c = some h →
        (∀ msg, h params = .error msg →
          IPCServer.dispatch handlers c params = .jobj [("error", .jstr msg)])
        ∧ (∀ r, h params = .ok r → IPCServer.dispatch handlers c params = r))
    ∧ IPCServer.handle_client [("echo", fun p => Except.ok p)]
        (.parsed [("command", .jstr "echo"), ("params", params)]) = some params := by
  refine ⟨rfl, ?_, ?_, ?_, ?_⟩
  · simp [IPCServer.handle_client, alGet]
  · intro hnone
    simp [IPCServer.dispatch, hnone]
  · intro h hsome
    constructor
    · intro msg hmsg
      simp [IPCServer.dispatch, hsome, hmsg]
    · intro r hr
      simp [IPCServer.dispatch, hsome, hr]
  · simp [IPCServer.handle_client, IPCServer.dispatch, alGet]

/-- C7 witness: concrete handler tables exercising every branch — an
unregistered command, a raising handler, and an echo round trip returning
the params object unchanged. -/
theorem c7_ipc_request_handling_witness :
    IPCServer.dispatch [("boom", fun _ => Except.error "kaboom")] "nope" (.jobj [])
      = .jobj [("error", .jstr "Unknown command: nope")]
    ∧ IPCServer.dispatch [("boom", fun _ => Except.error "kaboom")] "boom" (.jobj [])
      = .jobj [("error", .jstr "kaboom")]
    ∧ IPCServer.handle_client [("echo", fun p => Except.ok p)]
        (.parsed [("command", .jstr "echo"), ("params", .jobj [("a", .jnum 1)])])
      = some (.jobj [("a", .jnum 1)]) :=
  ⟨(c7_ipc_request_handling [("boom", fun _ => Except.error "kaboom")] "nope"
      (.jobj [])).2.2.1 rfl,
   ((c7_ipc_request_handling [("boom", fun _ => Except.error "kaboom")] "boom"
      (.jobj [])).2.2.2.1 (fun _ => Except.error "kaboom") rfl).1 "kaboom" rfl,
   (c7_ipc_request_handling [] "echo" (.jobj [("a", .jnum 1)])).2.2.2.2⟩

/-- C10: a connection on which the client sends zero bytes before closing —
exactly the `is_daemon_running` connect-and-close probe — produces no
response from the connection handler for every handler table, so liveness
probes never receive an `Invalid JSON` response. -/
theorem c10_empty_probe_no_response (handlers : List (String × Handler)) :
    IPCServer.handle_client handlers probePayload = none := rfl

/-! ## Theorems for claims C4, C5, C9 (run manager) -/

theorem alGet_alSet_self {β : Type} (l : List (String × β)) (k : String) (v : β) :
    alGet (alSet l k v) k = some v := by
  induction l with
  | nil => simp [alSet, alGet]
  | cons e rest ih =>
    obtain ⟨a, b⟩ := e
    by_cases h : a = k
    · simp [alSet, alGet, h]
    · simp [alSet, alGet, h, ih]

theorem alGet_alSet_ne {β : Type} (l : List (String × β)) (k key : String) (v : β)
    (h : k ≠ key) : alGet (alSet l k v) key = alGet l key := by
  have h2 : ¬(key = k) := fun hh => h hh.symm
  induction l with
  | nil => simp [alSet, alGet, h, h2]
  | cons e rest ih =>
    obtain ⟨a, b⟩ := e
    by_cases ha : a = k
    · subst ha
      simp [alSet, alGet, h, h2]
    · by_cases hb : a = key <;> simp [alSet, alGet, ha, hb, h2, ih]

/-- C5: `update_run_status` on a missing manifest returns `False` and
changes no state; on an existing manifest it returns `True`, rewrites only
that manifest's `status` and `updated_at` fields (keeping `prompt_path`,
`started_at` and `criteria`), and leaves every other manifest, the pointer
files and the base directory untouched. -/
theorem c5_update_run_status_frame (st : RMState) (run_id status now_iso : String) :
    (alGet st.manifests run_id = none →
      RunManager.update_run_status st run_id status now_iso = (false, st))
    ∧ (∀ m, alGet st.manifests run_id = some m →
        (RunManager.update_run_status st run_id status now_iso).1 = true
        ∧ (RunManager.update_run_status st run_id status now_iso).2.base_dir = st.base_dir
        ∧ (RunManager.update_run_status st run_id status now_iso).2.pointers = st.pointers
        ∧ alGet (RunManager.update_run_status st run_id status now_iso).2.manifests run_id
            = some { prompt_path := m.prompt_path, started_at := m.started_at
                     status := status, criteria := m.criteria
                     updated_at := some now_iso }
        ∧ (∀ id2, id2 ≠ run_id →
            alGet (RunManager.update_run_status st run_id status now_iso).2.manifests id2
              = alGet st.manifests id2)) := by
  constructor
  · intro hnone
    simp [RunManager.update_run_status, hnone]
  · intro m hm
    refine ⟨?_, ?_, ?_, ?_, ?_⟩
    · simp [RunManager.update_run_status, hm]
    · simp [RunManager.update_run_status, hm]
    · simp [RunManager.update_run_status, hm]
    · simp only [RunManager.update_run_status, hm]
      exact alGet_alSet_self _ _ _
    · intro id2 hid
      simp only [RunManager.update_run_status, hm]
      exact alGet_alSet_ne _ _ _ _ (fun h => hid h.symm)

/-- C5 witness: both branches evaluated on concrete states — a missing run
id on an empty store, and a present run id whose other manifest fields
survive the rewrite. -/
theorem c5_update_run_status_frame_witness :
    RunManager.update_run_status ⟨".agent", [], []⟩ "r1" "completed" "T9" = (false, ⟨".agent", [], []⟩)
    ∧ (RunManager.update_run_status
        ⟨".agent", [("r1", ⟨"a/PROMPT.md", "T0", "running", [], none⟩)], [("PROMPT", "r1")]⟩
        "r1" "completed" "T9").1 = true
    ∧ alGet (RunManager.update_run_status
        ⟨".agent", [("r1", ⟨"a/PROMPT.md", "T0", "running", [], none⟩)], [("PROMPT", "r1")]⟩
        "r1" "completed" "T9").2.manifests "r1"
        = some ⟨"a/PROMPT.md", "T0", "completed", [], some "T9"⟩ :=
  ⟨(c5_update_run_status_frame ⟨".agent", [], []⟩ "r1" "completed" "T9").1 rfl,
   ((c5_update_run_status_frame
      ⟨".agent", [("r1", ⟨"a/PROMPT.md", "T0", "running", [], none⟩)], [("PROMPT", "r1")]⟩
      "r1" "completed" "T9").2 ⟨"a/PROMPT.md", "T0", "running", [], none⟩ rfl).1,
   ((c5_update_run_status_frame
      ⟨".agent", [("r1", ⟨"a/PROMPT.md", "T0", "running", [], none⟩)], [("PROMPT", "r1")]⟩
      "r1" "completed" "T9").2 ⟨"a/PROMPT.md", "T0", "running", [], none⟩ rfl).2.2.2.1⟩

/-- C9: the latest-run pointer is keyed by the prompt path's stem alone, so
two `create_run` calls for distinct paths with the same stem write the same
pointer file; after the second call `get_latest_run` for that stem returns
the second run, whose manifest records the second prompt path. -/
theorem c9_latest_pointer_keyed_by_stem (st : RMState)
    (p1 p2 ts1 sfx1 iso1 ts2 sfx2 iso2 : String)
    (hstem : RunManager.extract_prompt_name p1 = RunManager.extract_prompt_name p2)
    (hclean : pyStrip (RunManager.mkRunId ts2 sfx2) = RunManager.mkRunId ts2 sfx2) :
    alGet (RunManager.create_run (RunManager.create_run st p1 ts1 sfx1 iso1).2
        p2 ts2 sfx2 iso2).2.pointers (RunManager.extract_prompt_name p1)
      = some (RunManager.mkRunId ts2 sfx2)
    ∧ RunManager.get_latest_run
        (RunManager.create_run (RunManager.create_run st p1 ts1 sfx1 iso1).2
          p2 ts2 sfx2 iso2).2 (RunManager.extract_prompt_name p1)
      = some (RunManager.runInfoOf st.base_dir (RunManager.mkRunId ts2 sfx2)
          { prompt_path := p2, started_at := iso2, status := "running"
            criteria := [], updated_at := none }) := by
  have hptr : alGet (RunManager.create_run (RunManager.create_run st p1 ts1 sfx1 iso1).2
      p2 ts2 sfx2 iso2).2.pointers (RunManager.extract_prompt_name p1)
      = some (RunManager.mkRunId ts2 sfx2) := by
    rw [hstem]
    exact alGet_alSet_self _ _ _
  refine ⟨hptr, ?_⟩
  unfold RunManager.get_latest_run
  rw [hptr]
  dsimp only
  rw [hclean]
  unfold RunManager.get_run
  simp only [RunManager.create_run]
  rw [alGet_alSet_self]

/-- C9 witness: two prompt paths in different directories sharing the stem
`PROMPT`; the pointer for `PROMPT` names the second run and the returned
manifest records the second path. -/
theorem c9_latest_pointer_keyed_by_stem_witness :
    alGet (RunManager.create_run
        (RunManager.create_run ⟨".agent", [], []⟩ "a/PROMPT.md" "20250101-120000" "aaaaaaaa" "T1").2
        "b/PROMPT.md" "20250101-120001" "bbbbbbbb" "T2").2.pointers "PROMPT"
      = some "20250101-120001-bbbbbbbb"
    ∧ RunManager.get_latest_run (RunManager.create_run
        (RunManager.create_run ⟨".agent", [], []⟩ "a/PROMPT.md" "20250101-120000" "aaaaaaaa" "T1").2
        "b/PROMPT.md" "20250101-120001" "bbbbbbbb" "T2").2 "PROMPT"
      = some (RunManager.runInfoOf ".agent" "20250101-120001-bbbbbbbb"
          ⟨"b/PROMPT.md", "T2", "running", [], none⟩) := by
  have h := c9_latest_pointer_keyed_by_stem ⟨".agent", [], []⟩
    "a/PROMPT.md" "b/PROMPT.md" "20250101-120000" "aaaaaaaa" "T1"
    "20250101-120001" "bbbbbbbb" "T2" (by decide) (by decide)
  constructor
  · have := h.1
    simpa using this
  · have := h.2
    simpa using this

theorem lex_lt_append (x y : List Char) (a : List Char) :
    ∀ (b : List Char), a.length = b.length → List.Lex (· < ·) a b →
      List.Lex (· < ·) (a ++ x) (b ++ y) := by
  induction a with
  | nil =>
    intro b hlen h
    cases h with
    | nil => simp at hlen
  | cons c cs ih =>
    intro b hlen h
    cases h with
    | cons h2 => exact List.Lex.cons (ih _ (by simpa using hlen) h2)
    | rel hr => exact List.Lex.rel hr

theorem mkRunId_lt (t1 t2 s1 s2 : String) (hlen : t1.length = t2.length)
    (h : t1 < t2) : RunManager.mkRunId t1 s1 < RunManager.mkRunId t2 s2 := by
  rw [String.lt_iff_toList_lt] at h ⊢
  have e1 : (RunManager.mkRunId t1 s1).toList = t1.data ++ ('-' :: s1.data) := by
    simp [RunManager.mkRunId, String.toList, String.data_append]
  have e2 : (RunManager.mkRunId t2 s2).toList = t2.data ++ ('-' :: s2.data) := by
    simp [RunManager.mkRunId, String.toList, String.data_append]
  rw [e1, e2]
  exact lex_lt_append _ _ _ _ hlen h

theorem create_runs_fst (p : String) (calls : List CreateCall) :
    ∀ st : RMState, (create_runs st p calls).1 = calls.map mkCallId := by
  induction calls with
  | nil => intro _; rfl
  | cons c rest ih =>
    intro st
    show mkCallId c :: (create_runs _ p rest).1 = _
    rw [ih, List.map_cons]

theorem create_runs_latest_append (p : String) (clast : CreateCall)
    (hclean : pyStrip (mkCallId clast) = mkCallId clast) :
    ∀ (front : List CreateCall) (st : RMState),
      RunManager.get_latest_run (create_runs st p (front ++ [clast])).2
          (RunManager.extract_prompt_name p)
        = some (RunManager.runInfoOf st.base_dir (mkCallId clast)
            { prompt_path := p, started_at := clast.iso, status := "running"
              criteria := [], updated_at := none }) := by
  intro front
  induction front with
  | nil =>
    intro st
    simp only [List.nil_append]
    unfold RunManager.get_latest_run
    have hptr : alGet (create_runs st p [clast]).2.pointers
        (RunManager.extract_prompt_name p) = some (mkCallId clast) := by
      simp only [create_runs, RunManager.create_run]
      exact alGet_alSet_self _ _ _
    rw [hptr]
    dsimp only
    rw [hclean]
    unfold RunManager.get_run
    have hman : alGet (create_runs st p [clast]).2.manifests (mkCallId clast)
        = some { prompt_path := p, started_at := clast.iso, status := "running"
                 criteria := [], updated_at := none } := by
      simp only [create_runs, RunManager.create_run]
      exact alGet_alSet_self _ _ _
    rw [hman]
    rfl
  | cons c front2 ih =>
    intro st
    exact ih (RunManager.create_run st p c.ts c.sfx c.iso).2

/-- C4 counterexample: two `create_run` calls landing in the same strftime
second (a realistic clock observation) with suffixes in reverse alphabetical
order produce distinct ids whose lexicographic order is the reverse of their
creation order, refuting the unconditional claim that lexicographic sort
order always equals chronological creation order. -/
theorem c4_counterexample :
    (create_runs ⟨".agent", [], []⟩ "PROMPT.md"
        [⟨"20250101-120000", "bbbbbbbb", "T1"⟩,
         ⟨"20250101-120000", "aaaaaaaa", "T2"⟩]).1
      = ["20250101-120000-bbbbbbbb", "20250101-120000-aaaaaaaa"]
    ∧ ("20250101-120000-aaaaaaaa" : String) < "20250101-120000-bbbbbbbb"
    ∧ "20250101-120000-aaaaaaaa" ≠ "20250101-120000-bbbbbbbb" := by
  refine ⟨by decide, ?_, by decide⟩
  rw [String.lt_iff_toList_lt]
  decide

/-- C4 amended: if the `N` calls observe strictly increasing strftime
timestamps (each of the fixed 15-character format, as two calls in the same
second need not sort in creation order), then the `N` run ids are pairwise
distinct, their lexicographic order equals creation order, and
`get_latest_run` for the prompt's name returns the run created by the `N`-th
call. -/
theorem c4_create_run_sequence (st : RMState) (p : String)
    (calls : List CreateCall) (hne : calls ≠ [])
    (hlen : ∀ c ∈ calls, c.ts.length = 15)
    (hmono : calls.Pairwise (fun a b => a.ts < b.ts))
    (hclean : ∀ c ∈ calls, pyStrip (mkCallId c) = mkCallId c) :
    (create_runs st p calls).1 = calls.map mkCallId
    ∧ (create_runs st p calls).1.Pairwise (· < ·)
    ∧ (create_runs st p calls).1.Nodup
    ∧ RunManager.get_latest_run (create_runs st p calls).2
        (RunManager.extract_prompt_name p)
      = some (RunManager.runInfoOf st.base_dir (mkCallId (calls.getLast hne))
          { prompt_path := p, started_at := (calls.getLast hne).iso
            status := "running", criteria := [], updated_at := none }) := by
  have hfst := create_runs_fst p calls st
  have hpw : (calls.map mkCallId).Pairwise (· < ·) := by
    rw [List.pairwise_map]
    refine hmono.imp_of_mem ?_
    intro a b ha hb hab
    exact mkRunId_lt a.ts b.ts a.sfx b.sfx (by rw [hlen a ha, hlen b hb]) hab
  refine ⟨hfst, ?_, ?_, ?_⟩
  · rw [hfst]; exact hpw
  · rw [hfst]; exact hpw.imp (fun hab => ne_of_lt hab)
  · have hdecomp := List.dropLast_append_getLast hne
    have h := create_runs_latest_append p (calls.getLast hne)
      (hclean _ (List.getLast_mem hne)) calls.dropLast st
    rw [hdecomp] at h
    exact h

/-- C4 witness: two calls in successive seconds; the ids are distinct,
lexicographically increasing in creation order, and the latest-run lookup
returns the second call's run. -/
theorem c4_create_run_sequence_witness :
    (create_runs ⟨".agent", [], []⟩ "PROMPT.md"
        [⟨"20250101-120000", "aaaaaaaa", "T1"⟩,
         ⟨"20250101-120001", "bbbbbbbb", "T2"⟩]).1
      = ["20250101-120000-aaaaaaaa", "20250101-120001-bbbbbbbb"]
    ∧ (create_runs ⟨".agent", [], []⟩ "PROMPT.md"
        [⟨"20250101-120000", "aaaaaaaa", "T1"⟩,
         ⟨"20250101-120001", "bbbbbbbb", "T2"⟩]).1.Pairwise (· < ·)
    ∧ (create_runs ⟨".agent", [], []⟩ "PROMPT.md"
        [⟨"20250101-120000", "aaaaaaaa", "T1"⟩,
         ⟨"20250101-120001", "bbbbbbbb", "T2"⟩]).1.Nodup
    ∧ RunManager.get_latest_run (create_runs ⟨".agent", [], []⟩ "PROMPT.md"
        [⟨"20250101-120000", "aaaaaaaa", "T1"⟩,
         ⟨"20250101-120001", "bbbbbbbb", "T2"⟩]).2 "PROMPT"
      = some (RunManager.runInfoOf ".agent" "20250101-120001-bbbbbbbb"
          { prompt_path := "PROMPT.md", started_at := "T2", status := "running"
            criteria := [], updated_at := none }) := by
  have hmono : List.Pairwise (fun a b : CreateCall => a.ts < b.ts)
      [⟨"20250101-120000", "aaaaaaaa", "T1"⟩, ⟨"20250101-120001", "bbbbbbbb", "T2"⟩] := by
    refine List.Pairwise.cons ?_ (List.Pairwise.cons (by simp) List.Pairwise.nil)
    intro b hb
    have hb2 : b = ⟨"20250101-120001", "bbbbbbbb", "T2"⟩ := by simpa using hb
    subst hb2
    rw [String.lt_iff_toList_lt]
    decide
  obtain ⟨h1, h2, h3, h4⟩ := c4_create_run_sequence ⟨".agent", [], []⟩ "PROMPT.md"
    [⟨"20250101-120000", "aaaaaaaa", "T1"⟩, ⟨"20250101-120001", "bbbbbbbb", "T2"⟩]
    (by decide) (by decide) hmono (by decide)
  refine ⟨?_, h2, h3, ?_⟩
  · rw [h1]; decide
  · rw [show ("PROMPT" : String) = RunManager.extract_prompt_name "PROMPT.md" from by decide]
    rw [h4]
    decide

end Ralph
